import Mathlib

/-!
Verification development for the multi-backend rate limiter of
`src/main.py` (repository `iamfaham/ui-on-the-fly`).

The embedding models the three rate-limit backends and the dispatching
function:

* `check_rate_limit_memory` — the in-memory fallback working on the
  module-level `rate_limit_storage` (a `defaultdict(list)`), modelled as a
  total map `String → List ℚ` whose default value is `[]`.
* the Redis backend — the per-key sorted set `rate_limit:{client_ip}` is
  modelled as a `Finset ℚ` (members of the sorted set are `str(timestamp)`
  scored by the timestamp, so a set of timestamps; adding a duplicate
  timestamp is a no-op, exactly like `ZADD` with an existing member).
* the database backend — the `rate_limits` table is modelled as a list of
  `(client_ip, timestamp)` rows.  The session is created with
  `autocommit=False`, so on the rejection path (which returns without
  `commit()`) the in-transaction `delete()` is rolled back when the session
  closes: the persistent table is unchanged on rejection.

Timestamps (`time.time()` floats) are modelled as rationals.  The limits
`RATE_LIMIT_REQUESTS` and `RATE_LIMIT_WINDOW` come from the environment, so
they are parameters (`L : ℕ`, `W : ℚ`) of every definition.

Operational failures of Redis or the database (the `except` branches) are
modelled by two boolean fields of the system state, `redisFails` and
`dbFails`, saying whether the backend operation raises at this moment; the
`try`-block bodies are `Except`-valued and the surrounding handlers are the
`match`/`tryCatch` wrappers below.
-/

/-- Keep-predicate of the memory backend's cleanup, from
`current_time - req_time < RATE_LIMIT_WINDOW` (line 220 of `src/main.py`):
an entry survives iff `now - t < W`. -/
def memKeep (W now t : ℚ) : Bool := decide (now - t < W)

/-- Removal predicate of the Redis backend's cleanup, from
`zremrangebyscore(key, 0, current_time - RATE_LIMIT_WINDOW)` (line 154):
removes every score in the closed range `[0, now - W]`. -/
def redisRemove (W now t : ℚ) : Bool := decide (0 ≤ t ∧ t ≤ now - W)

/-- Deletion predicate of the database backend's cleanup, from
`RateLimitRecord.timestamp < cutoff_time` (lines 182–186): strict
less-than against `now - W`. -/
def dbDelete (W now t : ℚ) : Bool := decide (t < now - W)

/-- `check_rate_limit_memory` (lines 214–229): filter the key's stored list
by the window, reject without appending when the filtered length has
reached the limit, otherwise append `now`.  Returns the decision and the
updated `rate_limit_storage`. -/
def check_rate_limit_memory (L : ℕ) (W : ℚ) (client_ip : String) (now : ℚ)
    (storage : String → List ℚ) : Bool × (String → List ℚ) :=
  let filtered := (storage client_ip).filter (memKeep W now)
  if L ≤ filtered.length then
    (false, fun k => if k = client_ip then filtered else storage k)
  else
    (true, fun k => if k = client_ip then filtered ++ [now] else storage k)

/-- The `try`-block body of `check_rate_limit_redis` (lines 148–169), acting
on the sorted set stored at `rate_limit:{client_ip}`: remove expired
scores, count, add the current timestamp unconditionally, and return
`count < RATE_LIMIT_REQUESTS` where the count was taken before the add. -/
def redisPipeline (L : ℕ) (W : ℚ) (now : ℚ) (zset : Finset ℚ) :
    Bool × Finset ℚ :=
  let cleaned := zset.filter (fun t => ¬ redisRemove W now t)
  let current_count := cleaned.card
  (decide (current_count < L), insert now cleaned)

/-- The `try`-block body of `check_rate_limit_database` (lines 178–207):
delete the key's expired rows, count the key's remaining rows, reject
without committing when the count has reached the limit (the uncommitted
delete is rolled back when the session closes, so the table is returned
unchanged), otherwise commit the cleanup together with the new row. -/
def databaseBody (L : ℕ) (W : ℚ) (client_ip : String) (now : ℚ)
    (db : List (String × ℚ)) : Bool × List (String × ℚ) :=
  let cleaned := db.filter (fun r => ¬ (r.1 = client_ip ∧ dbDelete W now r.2))
  let current_count := (cleaned.filter (fun r => r.1 = client_ip)).length
  if L ≤ current_count then (false, db)
  else (true, cleaned ++ [(client_ip, now)])

/-- Process-wide state of the limiter: the static backend-selection flags
(`redis_client is not None`, `SessionLocal is not None`, fixed at startup),
the transient availability of each backend at the present call (whether the
operation would raise), and the three stores. -/
structure SysState where
  redisAvailable : Bool
  dbAvailable : Bool
  redisFails : Bool
  dbFails : Bool
  redis : String → Finset ℚ
  db : List (String × ℚ)
  mem : String → List ℚ

/-- The memory backend lifted to the system state (it reads and writes only
`rate_limit_storage`). -/
def memorySys (L : ℕ) (W : ℚ) (client_ip : String) (now : ℚ)
    (st : SysState) : Bool × SysState :=
  let r := check_rate_limit_memory L W client_ip now st.mem
  (r.1, { st with mem := r.2 })

/-- The `try` block of `check_rate_limit_redis`: raises (`Except.error`)
exactly when the Redis operation fails, otherwise runs the pipeline on the
key's sorted set. -/
def redisAttempt (L : ℕ) (W : ℚ) (client_ip : String) (now : ℚ)
    (st : SysState) : Except String (Bool × SysState) :=
  if st.redisFails then Except.error "Redis rate limiting error"
  else
    let key := "rate_limit:" ++ client_ip
    let r := redisPipeline L W now (st.redis key)
    Except.ok (r.1, { st with redis := fun k => if k = key then r.2 else st.redis k })

/-- `check_rate_limit_redis` (lines 145–173): the `try` block, with the
`except` branch falling back to `check_rate_limit_memory` for the same
`(client_ip, current_time)`. -/
def check_rate_limit_redis (L : ℕ) (W : ℚ) (client_ip : String) (now : ℚ)
    (st : SysState) : Bool × SysState :=
  match redisAttempt L W client_ip now st with
  | Except.ok r => r
  | Except.error _ => memorySys L W client_ip now st

/-- The `try` block of `check_rate_limit_database`: raises exactly when the
database operation fails, otherwise runs the transaction body. -/
def databaseAttempt (L : ℕ) (W : ℚ) (client_ip : String) (now : ℚ)
    (st : SysState) : Except String (Bool × SysState) :=
  if st.dbFails then Except.error "Database rate limiting error"
  else
    let r := databaseBody L W client_ip now st.db
    Except.ok (r.1, { st with db := r.2 })

/-- `check_rate_limit_database` (lines 176–211): the `try` block, with the
`except` branch falling back to `check_rate_limit_memory` for the same
`(client_ip, current_time)`. -/
def check_rate_limit_database (L : ℕ) (W : ℚ) (client_ip : String) (now : ℚ)
    (st : SysState) : Bool × SysState :=
  match databaseAttempt L W client_ip now st with
  | Except.ok r => r
  | Except.error _ => memorySys L W client_ip now st

/-- `check_rate_limit` (lines 133–142): dispatch on the module-level
connection objects — Redis when `redis_client` is set, else the database
when `SessionLocal` is set, else the in-memory fallback. -/
def check_rate_limit (L : ℕ) (W : ℚ) (client_ip : String) (now : ℚ)
    (st : SysState) : Bool × SysState :=
  if st.redisAvailable then check_rate_limit_redis L W client_ip now st
  else if st.dbAvailable then check_rate_limit_database L W client_ip now st
  else memorySys L W client_ip now st

/-- Exception-propagation model of `check_rate_limit_redis`: the `except`
clause is an explicit handler around the `try` block. -/
def check_rate_limit_redis_exc (L : ℕ) (W : ℚ) (client_ip : String)
    (now : ℚ) (st : SysState) : Except String (Bool × SysState) :=
  Except.tryCatch (redisAttempt L W client_ip now st)
    (fun _ => Except.ok (memorySys L W client_ip now st))

/-- Exception-propagation model of `check_rate_limit_database`. -/
def check_rate_limit_database_exc (L : ℕ) (W : ℚ) (client_ip : String)
    (now : ℚ) (st : SysState) : Except String (Bool × SysState) :=
  Except.tryCatch (databaseAttempt L W client_ip now st)
    (fun _ => Except.ok (memorySys L W client_ip now st))

/-- Exception-propagation model of `check_rate_limit`: any uncaught backend
error would surface here as `Except.error`. -/
def check_rate_limit_exc (L : ℕ) (W : ℚ) (client_ip : String) (now : ℚ)
    (st : SysState) : Except String (Bool × SysState) :=
  if st.redisAvailable then check_rate_limit_redis_exc L W client_ip now st
  else if st.dbAvailable then check_rate_limit_database_exc L W client_ip now st
  else Except.ok (memorySys L W client_ip now st)

/-- Run a sequence of memory-backend checks for one key, recording the
decisions. -/
def memTrace (L : ℕ) (W : ℚ) (client_ip : String)
    (storage : String → List ℚ) : List ℚ → List Bool
  | [] => []
  | t :: ts =>
      let r := check_rate_limit_memory L W client_ip t storage
      r.1 :: memTrace L W client_ip r.2 ts

/-- Run a sequence of memory-backend checks with arbitrary keys and times,
returning the final `rate_limit_storage`. -/
def runMemory (L : ℕ) (W : ℚ) : List (String × ℚ) → (String → List ℚ) →
    (String → List ℚ)
  | [], storage => storage
  | (k, t) :: calls, storage =>
      runMemory L W calls (check_rate_limit_memory L W k t storage).2

/-- Request metadata seen by `get_client_ip` (lines 232–245): the two
headers it reads (`headers.get` returns `None` when absent) and
`request.client.host` when the transport peer is known. -/
structure Request where
  xForwardedFor : Option String
  xRealIP : Option String
  clientHost : Option String

/-- Python truthiness of `Optional[str]`: `if s:` succeeds iff the value is
present and non-empty. -/
def truthy : Option String → Option String
  | some s => if s = "" then none else some s
  | none => none

/-- Python `str.split(",")`: split at every comma, keeping empty pieces;
the empty string yields `[""]`. -/
def splitCommaAux : List Char → List Char → List String
  | [], acc => [⟨acc.reverse⟩]
  | c :: cs, acc =>
      if c = ',' then ⟨acc.reverse⟩ :: splitCommaAux cs []
      else splitCommaAux cs (c :: acc)

/-- Python `s.split(",")` on a string. -/
def pySplitComma (s : String) : List String := splitCommaAux s.data []

/-- Python `str.strip()`: drop leading and trailing whitespace. -/
def pyStrip (s : String) : String :=
  ⟨((s.data.dropWhile Char.isWhitespace).reverse.dropWhile
      Char.isWhitespace).reverse⟩

/-- `get_client_ip` (lines 232–245).  Note the Python truthiness tests
`if forwarded_for:` and `if real_ip:`: a header that is present with an
empty value is skipped exactly like an absent one.
`forwarded_for.split(",")[0].strip()` is the strip of the first comma
piece; `split` always returns a nonempty list, so index 0 exists. -/
def get_client_ip (r : Request) : String :=
  match truthy r.xForwardedFor with
  | some forwarded_for => pyStrip ((pySplitComma forwarded_for).headD "")
  | none =>
      match truthy r.xRealIP with
      | some real_ip => real_ip
      | none =>
          match r.clientHost with
          | some h => h
          | none => "unknown"

/-- Run a sequence of Redis-backend checks on one key's sorted set,
recording the decisions. -/
def redisTrace (L : ℕ) (W : ℚ) (zset : Finset ℚ) : List ℚ → List Bool
  | [] => []
  | t :: ts =>
      let r := redisPipeline L W t zset
      r.1 :: redisTrace L W r.2 ts

/-- After one memory-backend check every key's stored list still has length
at most the limit, provided that held before. -/
lemma length_le_after_check (L : ℕ) (W : ℚ) (ip : String) (now : ℚ)
    (s : String → List ℚ) (hs : ∀ k, (s k).length ≤ L) (k : String) :
    (((check_rate_limit_memory L W ip now s).2) k).length ≤ L := by
  have hfil : ((s ip).filter (memKeep W now)).length ≤ L :=
    le_trans (List.length_filter_le _ _) (hs ip)
  unfold check_rate_limit_memory
  by_cases hL : L ≤ ((s ip).filter (memKeep W now)).length
  · simp only [hL, if_true]
    by_cases hk : k = ip
    · simpa [hk] using hfil
    · simpa [hk] using hs k
  · simp only [hL, if_false]
    by_cases hk : k = ip
    · simp only [hk, if_true, List.length_append, List.length_singleton]
      omega
    · simpa [hk] using hs k

/-- The per-key length bound is preserved by any sequence of memory-backend
checks. -/
lemma runMemory_length_le (L : ℕ) (W : ℚ) (calls : List (String × ℚ))
    (s : String → List ℚ) (hs : ∀ k, (s k).length ≤ L) (k : String) :
    ((runMemory L W calls s) k).length ≤ L := by
  induction calls generalizing s with
  | nil => exact hs k
  | cons c rest ih =>
      obtain ⟨ck, ct⟩ := c
      simp only [runMemory]
      exact ih _ (fun k' => length_le_after_check L W ck ct s hs k')

/-- C7: with RATE_LIMIT_REQUESTS = 3 and RATE_LIMIT_WINDOW = 10, memory
backend, single key, starting from empty storage, the checks at times
0, 1, 2, 3, 11 return exactly [true, true, true, false, true]; the call at
t = 11 succeeds again after the two earliest entries expire. -/
theorem C7_concrete_scenario :
    memTrace 3 10 "1.2.3.4" (fun _ => []) [0, 1, 2, 3, 11] =
      [true, true, true, false, true] := by
  norm_num [memTrace, check_rate_limit_memory, memKeep]

/-- C10: starting from the empty in-memory storage, after any sequence of
`check_rate_limit_memory` calls with arbitrary keys and times, the stored
timestamp list of every key has length at most RATE_LIMIT_REQUESTS. -/
theorem C10_memory_length_invariant (L : ℕ) (W : ℚ)
    (calls : List (String × ℚ)) (k : String) :
    ((runMemory L W calls (fun _ => [])) k).length ≤ L :=
  runMemory_length_le L W calls _ (fun _ => by simp) k

/-- C9: a memory-backend check for key `ip` leaves every other key's stored
entries unchanged; its decision depends only on the checked key's own
entries (so exhausting key A cannot change the decision for key B); and a
key with no prior entries is treated as count 0: when the limit is
positive the call is admitted and the key's entries become `[now]`. -/
theorem C9_key_isolation (L : ℕ) (W : ℚ) (ip : String) (now : ℚ)
    (s : String → List ℚ) :
    (∀ k, k ≠ ip → (check_rate_limit_memory L W ip now s).2 k = s k)
  ∧ (∀ s' : String → List ℚ, s' ip = s ip →
      (check_rate_limit_memory L W ip now s').1 =
        (check_rate_limit_memory L W ip now s).1)
  ∧ (s ip = [] → 0 < L →
      (check_rate_limit_memory L W ip now s).1 = true
      ∧ (check_rate_limit_memory L W ip now s).2 ip = [now]) := by
  refine ⟨?_, ?_, ?_⟩
  · intro k hk
    unfold check_rate_limit_memory
    by_cases hL : L ≤ ((s ip).filter (memKeep W now)).length <;>
      simp [hL, hk]
  · intro s' hs'
    unfold check_rate_limit_memory
    rw [hs']
    by_cases hL : L ≤ ((s ip).filter (memKeep W now)).length <;> simp [hL]
  · intro hempty hL
    unfold check_rate_limit_memory
    rw [hempty]
    simp [Nat.pos_iff_ne_zero.mp hL]

/-- C9 witness: concrete instance — a check for key "a" on empty storage
leaves key "b" untouched and admits the request. -/
theorem C9_key_isolation_witness :
    (check_rate_limit_memory 5 60 "a" 7 (fun _ => [])).2 "b" = []
    ∧ (check_rate_limit_memory 5 60 "a" 7 (fun _ => [])).1 = true := by
  refine ⟨(C9_key_isolation 5 60 "a" 7 (fun _ => [])).1 "b" (by decide),
    ((C9_key_isolation 5 60 "a" 7 (fun _ => [])).2.2 rfl (by norm_num)).1⟩

/-- C3 counterexample: the claim says an entry whose timestamp equals
`now - RATE_LIMIT_WINDOW` exactly is still counted in every backend, so
with limit 1, window 60, stored entry at 0 and a check at now = 60 the
call would have to be rejected.  The memory backend instead drops the
boundary entry (`now - t < W` fails at `t = now - W`) and admits the call:
the stored list afterwards is `[60]`, the entry at 0 gone. -/
theorem C3_counterexample :
    (check_rate_limit_memory 1 60 "k" 60
        (fun k => if k = "k" then [0] else [])).1 = true
    ∧ (check_rate_limit_memory 1 60 "k" 60
        (fun k => if k = "k" then [0] else [])).2 "k" = [60] := by
  constructor <;> norm_num [check_rate_limit_memory, memKeep]

/-- C3 amended: only the database backend expires with strict less-than
(`timestamp < now - W`), so only there the boundary entry at exactly
`now - W` is still counted.  The memory backend keeps an entry iff
`now - t < W`, which drops the boundary entry, and the Redis cleanup
removes every score in the closed range `[0, now - W]`, which also drops
it (whenever the boundary value is a reachable, nonnegative timestamp). -/
theorem C3_boundary_expiry (W now : ℚ) (h : 0 ≤ now - W) :
    memKeep W now (now - W) = false
    ∧ redisRemove W now (now - W) = true
    ∧ dbDelete W now (now - W) = false := by
  refine ⟨?_, ?_, ?_⟩
  · simp [memKeep]
  · simp [redisRemove, h]
  · simp [dbDelete]

/-- C3 witness: the boundary facts at window 60, now = 60, entry at 0. -/
theorem C3_boundary_expiry_witness :
    memKeep 60 60 0 = false
    ∧ redisRemove 60 60 0 = true
    ∧ dbDelete 60 60 0 = false := by
  have h := C3_boundary_expiry 60 60 (by norm_num)
  norm_num at h ⊢
  exact h

/-- C2 counterexample: the claim says no backend records an entry on a
rejected call.  The Redis pipeline adds the current timestamp
unconditionally: with limit 1, window 60, stored set {0} and a check at
now = 10 the call is rejected, yet the stored set afterwards is {0, 10} —
cleanup at now = 10 removes nothing, so the set after the rejected call
differs from the set before it. -/
theorem C2_counterexample :
    (redisPipeline 1 60 10 {0}).1 = false
    ∧ (redisPipeline 1 60 10 {0}).2 = ({0, 10} : Finset ℚ) := by
  constructor <;>
    norm_num [redisPipeline, redisRemove, Finset.filter_singleton,
      Finset.pair_comm]

/-- C2 amended: the memory and database backends record no entry on a
rejected call — the memory backend stores exactly the filtered previous
entries, and the database backend leaves the table entirely unchanged
(the uncommitted cleanup is rolled back) — but the Redis backend always
adds the current timestamp to the cleaned set, also when it rejects. -/
theorem C2_rejection_records_nothing (L : ℕ) (W : ℚ) (ip : String)
    (now : ℚ) (s : String → List ℚ) (db : List (String × ℚ))
    (z : Finset ℚ) :
    ((check_rate_limit_memory L W ip now s).1 = false →
      (check_rate_limit_memory L W ip now s).2 ip =
        (s ip).filter (memKeep W now))
    ∧ ((databaseBody L W ip now db).1 = false →
      (databaseBody L W ip now db).2 = db)
    ∧ (redisPipeline L W now z).2 =
        insert now (z.filter (fun t => ¬ redisRemove W now t)) := by
  refine ⟨?_, ?_, rfl⟩
  · intro h
    unfold check_rate_limit_memory at h ⊢
    by_cases hL : L ≤ ((s ip).filter (memKeep W now)).length
    · simp [hL]
    · simp [hL] at h
  · intro h
    simp only [databaseBody] at h ⊢
    split at h
    next hL => rw [if_pos hL]
    next hL => simp at h

/-- C2 witness: with limit 0 every call is rejected; on empty stores the
memory backend keeps the empty list, the database keeps the empty table,
and the Redis backend nevertheless inserts the timestamp. -/
theorem C2_rejection_records_nothing_witness :
    (check_rate_limit_memory 0 60 "a" 5 (fun _ => [])).2 "a" = []
    ∧ (databaseBody 0 60 "a" 5 []).2 = []
    ∧ (redisPipeline 0 60 5 ∅).2 =
        insert (5 : ℚ) (Finset.filter (fun t => ¬ redisRemove 60 5 t) ∅) :=
  ⟨(C2_rejection_records_nothing 0 60 "a" 5 (fun _ => []) [] ∅).1 rfl,
   (C2_rejection_records_nothing 0 60 "a" 5 (fun _ => []) [] ∅).2.1 rfl,
   (C2_rejection_records_nothing 0 60 "a" 5 (fun _ => []) [] ∅).2.2⟩

/-- C6: `check_rate_limit` is total.  In the exception-propagation model,
where each backend's `try` block may raise and each `except` clause is an
explicit handler, the dispatcher always produces `Except.ok` of the value
of the direct model: no backend error ever propagates to the caller,
because both fallible backends are wrapped in handlers that recover with
the in-memory store, which is a pure total function. -/
theorem C6_allow_total (L : ℕ) (W : ℚ) (ip : String) (now : ℚ)
    (st : SysState) :
    check_rate_limit_exc L W ip now st =
      Except.ok (check_rate_limit L W ip now st) := by
  unfold check_rate_limit_exc check_rate_limit check_rate_limit_redis_exc
    check_rate_limit_redis check_rate_limit_database_exc
    check_rate_limit_database redisAttempt databaseAttempt
  by_cases hR : st.redisAvailable <;> by_cases hD : st.dbAvailable <;>
    by_cases hRF : st.redisFails <;> by_cases hDF : st.dbFails <;>
      simp [hR, hD, hRF, hDF, Except.tryCatch]

/-- C4 counterexample state: Redis configured but failing at this call, the
database configured, healthy, and already holding the limit-filling row
("a", 50); the in-memory storage empty. -/
def st4 : SysState :=
  { redisAvailable := true, dbAvailable := true, redisFails := true,
    dbFails := false, redis := fun _ => ∅, db := [("a", 50)],
    mem := fun _ => [] }

/-- C4 counterexample: the claim says a failing Redis check retries against
the relational store.  In `st4` the database would reject key "a" at
now = 100 (its row at 50 is inside the window and fills the limit 1), but
the dispatcher admits the call: the Redis `except` branch falls back
directly to the in-memory store, skipping the database. -/
theorem C4_counterexample :
    (check_rate_limit 1 60 "a" 100 st4).1 = true
    ∧ (check_rate_limit_database 1 60 "a" 100 st4).1 = false := by
  constructor <;>
    norm_num [check_rate_limit, check_rate_limit_redis, redisAttempt,
      memorySys, check_rate_limit_memory, st4, check_rate_limit_database,
      databaseAttempt, databaseBody, dbDelete, memKeep]

/-- C4 amended: on an operational error, each fallible backend falls back
directly to the in-memory store for the same `(key, now)`: Redis does not
retry against the relational store, and the relational store falls back to
memory.  The cascade is a single step in both cases. -/
theorem C4_error_falls_back_to_memory (L : ℕ) (W : ℚ) (ip : String)
    (now : ℚ) (st : SysState) :
    (st.redisFails = true →
      check_rate_limit_redis L W ip now st = memorySys L W ip now st)
    ∧ (st.dbFails = true →
      check_rate_limit_database L W ip now st = memorySys L W ip now st) := by
  constructor <;> intro h <;>
    simp [check_rate_limit_redis, redisAttempt, check_rate_limit_database,
      databaseAttempt, h]

/-- C4 witness: a state where both fallible backends fail; each check
equals the in-memory check. -/
theorem C4_error_falls_back_to_memory_witness :
    check_rate_limit_redis 1 60 "a" 5
        ⟨true, true, true, true, fun _ => ∅, [], fun _ => []⟩ =
      memorySys 1 60 "a" 5
        ⟨true, true, true, true, fun _ => ∅, [], fun _ => []⟩
    ∧ check_rate_limit_database 1 60 "a" 5
        ⟨true, true, true, true, fun _ => ∅, [], fun _ => []⟩ =
      memorySys 1 60 "a" 5
        ⟨true, true, true, true, fun _ => ∅, [], fun _ => []⟩ :=
  ⟨(C4_error_falls_back_to_memory 1 60 "a" 5 _).1 rfl,
   (C4_error_falls_back_to_memory 1 60 "a" 5 _).2 rfl⟩

/-- C5 counterexample state: Redis configured (no database), failing at the
first call; all stores empty. -/
def st5 : SysState :=
  { redisAvailable := true, dbAvailable := false, redisFails := true,
    dbFails := false, redis := fun _ => ∅, db := [], mem := fun _ => [] }

/-- The state after the first call of the C5 scenario, with Redis now
operational again. -/
def st5after : SysState :=
  { (check_rate_limit 1 60 "k" 10 st5).2 with redisFails := false }

/-- C5 counterexample: the claim says that once a failure causes a
downgrade, every later check uses the downgraded backend.  In `st5` the
first check (limit 1, window 60, key "k", now = 10) is served by the
memory store because Redis fails.  When Redis is operational again at
now = 11, the next check is served by Redis and admits the call, while the
memory store — the backend the claim says must still be in use — would
reject it: the code keeps no downgrade state and returns to the preferred
backend. -/
theorem C5_counterexample :
    check_rate_limit 1 60 "k" 10 st5 = memorySys 1 60 "k" 10 st5
    ∧ (check_rate_limit 1 60 "k" 11 st5after).1 = true
    ∧ (memorySys 1 60 "k" 11 st5after).1 = false := by
  refine ⟨?_, ?_, ?_⟩
  · simp [check_rate_limit, check_rate_limit_redis, redisAttempt, st5]
  · norm_num [check_rate_limit, check_rate_limit_redis, redisAttempt,
      st5after, st5, memorySys, check_rate_limit_memory, redisPipeline,
      redisRemove, memKeep]
  · norm_num [st5after, st5, check_rate_limit, check_rate_limit_redis,
      redisAttempt, memorySys, check_rate_limit_memory, memKeep]

/-- C5 amended: fallback is strictly per-call.  A check never alters the
backend-selection flags (nor the failure indicators), and the backend used
is determined by the static availability flags alone: with Redis
configured the check always starts at Redis, with only the database
configured it always starts at the database, and otherwise it uses
memory.  There is no process-wide downgrade state. -/
theorem C5_selection_is_static (L : ℕ) (W : ℚ) (ip : String) (now : ℚ)
    (st : SysState) :
    ((check_rate_limit L W ip now st).2.redisAvailable = st.redisAvailable)
    ∧ ((check_rate_limit L W ip now st).2.dbAvailable = st.dbAvailable)
    ∧ ((check_rate_limit L W ip now st).2.redisFails = st.redisFails)
    ∧ ((check_rate_limit L W ip now st).2.dbFails = st.dbFails)
    ∧ (st.redisAvailable = true →
        check_rate_limit L W ip now st = check_rate_limit_redis L W ip now st)
    ∧ (st.redisAvailable = false → st.dbAvailable = true →
        check_rate_limit L W ip now st =
          check_rate_limit_database L W ip now st)
    ∧ (st.redisAvailable = false → st.dbAvailable = false →
        check_rate_limit L W ip now st = memorySys L W ip now st) := by
  unfold check_rate_limit check_rate_limit_redis check_rate_limit_database
    redisAttempt databaseAttempt memorySys
  by_cases hR : st.redisAvailable <;> by_cases hD : st.dbAvailable <;>
    by_cases hRF : st.redisFails <;> by_cases hDF : st.dbFails <;>
      simp [hR, hD, hRF, hDF]

/-- C8 counterexample: the claim says that whenever X-Forwarded-For is
present the key is its first comma piece, trimmed.  For a request carrying
the header with an empty value (legal in HTTP) and X-Real-IP 9.9.9.9, the
first comma piece of the empty value trimmed is "", but the code returns
"9.9.9.9": Python's `if forwarded_for:` treats a present-but-empty header
like an absent one. -/
theorem C8_counterexample :
    get_client_ip ⟨some "", some "9.9.9.9", some "7.7.7.7"⟩ = "9.9.9.9"
    ∧ pyStrip ((pySplitComma "").headD "") = ""
    ∧ ("9.9.9.9" : String) ≠ "" :=
  ⟨by decide, by decide, by decide⟩

/-- C8 amended: `get_client_ip` uses the priority order of the claim, with
"present" strengthened to "present and non-empty" (Python truthiness):
first the trimmed first comma piece of a non-empty X-Forwarded-For, else a
non-empty X-Real-IP verbatim, else the transport peer address when known,
else the literal "unknown".  (`truthy h = none` states that the header is
absent or empty.) -/
theorem C8_priority_order (r : Request) :
    (∀ s, r.xForwardedFor = some s → s ≠ "" →
        get_client_ip r = pyStrip ((pySplitComma s).headD ""))
    ∧ (∀ s, truthy r.xForwardedFor = none → r.xRealIP = some s → s ≠ "" →
        get_client_ip r = s)
    ∧ (∀ h, truthy r.xForwardedFor = none → truthy r.xRealIP = none →
        r.clientHost = some h → get_client_ip r = h)
    ∧ (truthy r.xForwardedFor = none → truthy r.xRealIP = none →
        r.clientHost = none → get_client_ip r = "unknown") := by
  refine ⟨?_, ?_, ?_, ?_⟩
  · intro s hs hne
    simp [get_client_ip, truthy, hs, hne]
  · intro s hf hs hne
    unfold get_client_ip
    rw [hf, hs]
    simp [truthy, hne]
  · intro h hf hr hc
    unfold get_client_ip
    rw [hf, hr, hc]
  · intro hf hr hc
    unfold get_client_ip
    rw [hf, hr, hc]

/-- C8 witness: one concrete request per priority tier. -/
theorem C8_priority_order_witness :
    get_client_ip ⟨some " 1.2.3.4 ,10.0.0.1", some "9.9.9.9", some "7.7.7.7"⟩ =
      pyStrip ((pySplitComma " 1.2.3.4 ,10.0.0.1").headD "")
    ∧ get_client_ip ⟨none, some "9.9.9.9", some "7.7.7.7"⟩ = "9.9.9.9"
    ∧ get_client_ip ⟨some "", none, some "7.7.7.7"⟩ = "7.7.7.7"
    ∧ get_client_ip ⟨none, some "", none⟩ = "unknown" :=
  ⟨(C8_priority_order _).1 " 1.2.3.4 ,10.0.0.1" rfl (by decide),
   (C8_priority_order _).2.1 "9.9.9.9" rfl rfl (by decide),
   (C8_priority_order _).2.2.1 "7.7.7.7" (by decide) (by decide) rfl,
   (C8_priority_order _).2.2.2 (by decide) (by decide) rfl⟩

/-- C1 counterexample: two evaluations refuting the claim as stated.
First, the Redis backend with limit 2, window 60 and four checks at the
same timestamp 0 — certainly all within one window-length interval —
returns true four times: a rejected call re-inserts the duplicate member
`str(0)` into the sorted set, which never grows past one element, so the
count stays below the limit.  Second, the memory backend with limit 5,
window 60, six checks at times 0,...,0,60 — all inside the 60-second
interval [0, 60] — returns true six times: at now = 60 the entries at 0
have just expired (`60 - 0 < 60` fails), so the sixth check, the
(limit+1)-th inside the interval, is admitted rather than rejected. -/
theorem C1_counterexample :
    redisTrace 2 60 ∅ [0, 0, 0, 0] = [true, true, true, true]
    ∧ memTrace 5 60 "k" (fun _ => []) [0, 0, 0, 0, 0, 60] =
        [true, true, true, true, true, true] := by
  have hstep0 : redisPipeline 2 60 0 (∅ : Finset ℚ) = (true, {0}) := by
    norm_num [redisPipeline]
  have hstep1 : redisPipeline 2 60 0 ({0} : Finset ℚ) = (true, {0}) := by
    norm_num [redisPipeline, Finset.filter_singleton, redisRemove,
      Finset.insert_idem]
  constructor
  · simp [redisTrace, hstep0, hstep1]
  · norm_num [memTrace, check_rate_limit_memory, memKeep]

/-- When no stored entry of the checked key can expire during the run, the
memory backend admits exactly the first `L - (s ip).length` checks. -/
lemma memTrace_no_expiry (L : ℕ) (W : ℚ) (ip : String) (ts : List ℚ)
    (s : String → List ℚ)
    (hlen : (s ip).length ≤ L)
    (h1 : ∀ t ∈ ts, ∀ x ∈ s ip, t - x < W)
    (h2 : ∀ a ∈ ts, ∀ b ∈ ts, a - b < W) :
    memTrace L W ip s ts =
      List.replicate (min ts.length (L - (s ip).length)) true ++
        List.replicate (ts.length - (L - (s ip).length)) false := by
  induction ts generalizing s with
  | nil => simp [memTrace]
  | cons t ts ih =>
      have hfil : (s ip).filter (memKeep W t) = s ip :=
        List.filter_eq_self.mpr fun x hx => by
          simpa [memKeep] using h1 t (List.mem_cons_self t ts) x hx
      simp only [memTrace, check_rate_limit_memory, hfil]
      by_cases hL : L ≤ (s ip).length
      · rw [if_pos hL]
        have hzero : L - (s ip).length = 0 := by omega
        have hs' : (fun k => if k = ip then s ip else s k) = s := by
          funext k
          by_cases hk : k = ip <;> simp [hk]
        rw [hs']
        rw [ih s hlen
          (fun t' ht' x hx => h1 t' (List.mem_cons_of_mem t ht') x hx)
          (fun a ha b hb =>
            h2 a (List.mem_cons_of_mem t ha) b (List.mem_cons_of_mem t hb))]
        simp [hzero, List.replicate_succ]
      · rw [if_neg hL]
        have hlt : (s ip).length < L := lt_of_not_le hL
        have hlen' :
            ((fun k => if k = ip then s ip ++ [t] else s k) ip).length ≤ L := by
          simp only [eq_self_iff_true, ite_true, List.length_append,
            List.length_singleton]
          omega
        have h1' : ∀ t' ∈ ts,
            ∀ x ∈ (fun k => if k = ip then s ip ++ [t] else s k) ip,
              t' - x < W := by
          intro t' ht' x hx
          simp only [eq_self_iff_true, ite_true, List.mem_append,
            List.mem_singleton] at hx
          rcases hx with hx | hx
          · exact h1 t' (List.mem_cons_of_mem t ht') x hx
          · rw [hx]
            exact h2 t' (List.mem_cons_of_mem t ht') t
              (List.mem_cons_self t ts)
        have h2' : ∀ a ∈ ts, ∀ b ∈ ts, a - b < W := fun a ha b hb =>
          h2 a (List.mem_cons_of_mem t ha) b (List.mem_cons_of_mem t hb)
        rw [ih (fun k => if k = ip then s ip ++ [t] else s k) hlen' h1' h2']
        simp only [eq_self_iff_true, ite_true, List.length_append,
          List.length_singleton, List.length_cons]
        rw [show L - (s ip).length = (L - ((s ip).length + 1)) + 1 from by
          omega]
        rw [show (ts.length + 1) ⊓ ((L - ((s ip).length + 1)) + 1) =
          (ts.length ⊓ (L - ((s ip).length + 1))) + 1 from by omega]
        rw [show (ts.length + 1) - ((L - ((s ip).length + 1)) + 1) =
          ts.length - (L - ((s ip).length + 1)) from by omega]
        simp [List.replicate_succ]

/-- C1 amended: for the memory backend, starting from empty storage for the
key, for every sequence of checks whose timestamps pairwise differ by
strictly less than RATE_LIMIT_WINDOW (so that no admitted entry can expire
during the run), exactly the first `min n RATE_LIMIT_REQUESTS` checks
return true: at most RATE_LIMIT_REQUESTS checks return true, and the
(RATE_LIMIT_REQUESTS+1)-th check, when present, returns false. -/
theorem C1_window_quota (L : ℕ) (W : ℚ) (ip : String) (ts : List ℚ)
    (h : ∀ a ∈ ts, ∀ b ∈ ts, a - b < W) :
    memTrace L W ip (fun _ => []) ts =
      List.replicate (min ts.length L) true ++
        List.replicate (ts.length - L) false := by
  have hmain := memTrace_no_expiry L W ip ts (fun _ => [])
    (by simp) (by simp) h
  simpa using hmain

/-- C1 witness: six checks at time 0 with limit 5 give five trues and then
a false. -/
theorem C1_window_quota_witness :
    (∀ a ∈ ([0, 0, 0, 0, 0, 0] : List ℚ),
      ∀ b ∈ ([0, 0, 0, 0, 0, 0] : List ℚ), a - b < 60)
    ∧ memTrace 5 60 "1.2.3.4" (fun _ => []) [0, 0, 0, 0, 0, 0] =
        List.replicate (min 6 5) true ++ List.replicate (6 - 5) false := by
  have h : ∀ a ∈ ([0, 0, 0, 0, 0, 0] : List ℚ),
      ∀ b ∈ ([0, 0, 0, 0, 0, 0] : List ℚ), a - b < 60 := by
    intro a ha b hb
    simp only [List.mem_cons, List.not_mem_nil, or_false, or_self] at ha hb
    rw [ha, hb]
    norm_num
  exact ⟨h, C1_window_quota 5 60 "1.2.3.4" [0, 0, 0, 0, 0, 0] h⟩

/-- C5 witness: with Redis configured the check is the Redis check; with
nothing configured it is the memory check. -/
theorem C5_selection_is_static_witness :
    check_rate_limit 1 60 "a" 5
        ⟨true, false, false, false, fun _ => ∅, [], fun _ => []⟩ =
      check_rate_limit_redis 1 60 "a" 5
        ⟨true, false, false, false, fun _ => ∅, [], fun _ => []⟩
    ∧ check_rate_limit 1 60 "a" 5
        ⟨false, false, false, false, fun _ => ∅, [], fun _ => []⟩ =
      memorySys 1 60 "a" 5
        ⟨false, false, false, false, fun _ => ∅, [], fun _ => []⟩ :=
  ⟨(C5_selection_is_static 1 60 "a" 5 _).2.2.2.2.1 rfl,
   (C5_selection_is_static 1 60 "a" 5 _).2.2.2.2.2.2 rfl rfl⟩
